import Mathlib

/-!
Verification development for the route-discovery and specification-synthesis
engine of `hono-swagger-ui` (src/index.ts, src/routerScanner.ts, and the
`HonoSwaggerAnalyzer` in the analyzer module).

The embedding models JavaScript objects with optional keys explicitly:
a key can be absent, present with the value `undefined`, or present with a
value.  This distinction matters because the registry's merge is the JS
object-spread, for which a key that is present with value `undefined`
overrides, while an absent key does not.
-/

namespace HonoSwaggerUI

/-- Presence of an optional key on a JS object: the key can be absent,
present with value `undefined`, or present with a value. -/
inductive JsOpt (α : Type) where
  | absent
  | undefined
  | val (a : α)
deriving DecidableEq, Repr

/-- Semantics of one field under the JS object spread `\x7b...old, ...new\x7d`:
a key present on `new` (even with value `undefined`) overrides, an absent
key keeps the old value. -/
def jsSpread {α : Type} (old new : JsOpt α) : JsOpt α :=
  match new with
  | .absent => old
  | n => n

/-- Coercion used when a JS expression that may be `undefined` is assigned to
an object-literal key: the key becomes present even when the value is absent
(e.g. `description: options?.description`). -/
def JsOpt.orUndefined {α : Type} : JsOpt α → JsOpt α
  | .absent => .undefined
  | x => x

/-- JSON-like runtime values (used for responses, request bodies, schema
payloads carried around by the registry). -/
inductive JsonV where
  | str (s : String)
  | num (n : Int)
  | bool (b : Bool)
  | null
  | arr (xs : List JsonV)
  | obj (kvs : List (String × JsonV))

/-- JS truthiness of a runtime value (`''`, `0`, `false`, `null` are falsy). -/
def jsTruthy : JsonV → Bool
  | .null => false
  | .bool b => b
  | .num n => !(n = 0)
  | .str s => !(s = "")
  | .arr _ => true
  | .obj _ => true

/-- Truthiness of `options?.field` for a possibly-absent JSON value. -/
def jsOptTruthy : JsOpt JsonV → Bool
  | .val v => jsTruthy v
  | _ => false

/-- JS `a || b` where `a` is a string expression (empty string is falsy). -/
def jsOrStr (o : JsOpt String) (d : String) : String :=
  match o with
  | .val s => if s = "" then d else s
  | _ => d

/-- JS `a || b` where `a` is an array expression (an array is always truthy,
also when empty). -/
def jsOrList {α : Type} (o : JsOpt (List α)) (d : List α) : List α :=
  match o with
  | .val l => l
  | _ => d

/-- JS `a || b` where `a` is an arbitrary JSON value. -/
def jsOrJson (o : JsOpt JsonV) (d : JsonV) : JsonV :=
  match o with
  | .val v => if jsTruthy v then v else d
  | _ => d

/-! ### Path handling

`convertToOpenAPIPath` (src/index.ts:699) performs
`path.replace(/:(\w+)/g, '\x7b$1\x7d')`; the context-based branch of that
function is guarded by a `try` around `c.req.param()` which always throws
for the empty context object `\x7b\x7d as Context` that every registration
caller passes, so it contributes nothing on the registration paths.
The regex scan is embedded as a single structurally recursive pass over the
character list (the `Bool` flag records whether the scan is currently
inside a `\w+` run whose opening brace has been emitted). -/

/-- JS `\w` character class: ASCII letters, digits, underscore. -/
def isWordChar (c : Char) : Bool := c.isAlphanum || c = '_'

/-- One left-to-right pass of `path.replace(/:(\w+)/g, '\x7b$1\x7d')` over the
characters of the path.  `inWord = true` means a match is open: its `\x7b` and
at least one word character have been emitted and its `\x7d` is pending. -/
def rcpA : Bool → List Char → List Char
  | false, [] => []
  | true, [] => ['}']
  | false, c :: rest =>
      if c = ':' then
        match rest with
        | [] => [':']
        | c2 :: rest2 =>
          if isWordChar c2 then '{' :: c2 :: rcpA true rest2
          else ':' :: rcpA false (c2 :: rest2)
      else c :: rcpA false rest
  | true, c :: rest =>
      if isWordChar c then c :: rcpA true rest
      else if c = ':' then
        match rest with
        | [] => ['}', ':']
        | c2 :: rest2 =>
          if isWordChar c2 then '}' :: '{' :: c2 :: rcpA true rest2
          else '}' :: ':' :: rcpA false (c2 :: rest2)
      else '}' :: c :: rcpA false rest

/-- `convertToOpenAPIPath` of src/index.ts:699 on the registration paths:
rewrite every colon-parameter `:name` to the placeholder `\x7bname\x7d`. -/
def convertToOpenAPIPath (path : String) : String := ⟨rcpA false path.data⟩

/-- Trailing-slash normalization inlined in `autoRegisterRoute`
(src/index.ts:215): `p.endsWith('/') && p !== '/' ? p.slice(0, -1) : p`. -/
def normalizePath (p : String) : String :=
  if p.data.getLast? = some '/' ∧ p ≠ "/" then ⟨p.data.dropLast⟩ else p

/-- Scan of `path.match(/:\w+/g)` used by `extractParametersFromPath`
(src/index.ts:243), collecting the parameter names.  `acc` is `some` of the
reversed characters of the currently open `\w+` run. -/
def ecpA : Option (List Char) → List Char → List String
  | none, [] => []
  | some acc, [] => [⟨acc.reverse⟩]
  | none, c :: rest =>
      if c = ':' then
        match rest with
        | [] => []
        | c2 :: rest2 =>
          if isWordChar c2 then ecpA (some [c2]) rest2
          else ecpA none (c2 :: rest2)
      else ecpA none rest
  | some acc, c :: rest =>
      if isWordChar c then ecpA (some (c :: acc)) rest
      else if c = ':' then
        match rest with
        | [] => [⟨acc.reverse⟩]
        | c2 :: rest2 =>
          if isWordChar c2 then (⟨acc.reverse⟩ : String) :: ecpA (some [c2]) rest2
          else (⟨acc.reverse⟩ : String) :: ecpA none (c2 :: rest2)
      else (⟨acc.reverse⟩ : String) :: ecpA none rest

/-- Absence of any `':'` immediately followed by a word character, i.e. the
condition under which the `/:\w+/g` scan cannot find a match. -/
def noCW : List Char → Bool
  | [] => true
  | [_] => true
  | c :: c2 :: rest => !(c == ':' && isWordChar c2) && noCW (c2 :: rest)

/-- Split a character list on `'/'` (JS `path.split('/')`). -/
def splitSlash : List Char → List (List Char)
  | [] => [[]]
  | '/' :: rest => [] :: splitSlash rest
  | c :: rest =>
      match splitSlash rest with
      | s :: ss => (c :: s) :: ss
      | [] => [[c]]

/-- JS `String.prototype.startsWith`. -/
def strStartsWith (p search : String) : Bool := List.isPrefixOf search.data p.data

/-- `generateTagFromPath` (src/index.ts:859): split on `'/'`, keep non-empty
segments not starting with `'\x7b'`, return the second such segment if present
(it is non-empty, hence truthy), else the first, else `"default"`. -/
def generateTagFromPath (path : String) : String :=
  let segments := (splitSlash path.data).filter (fun s => !s.isEmpty && s.head? ≠ some '{')
  if segments.length > 0 then
    match segments[1]? with
    | some s => ⟨s⟩
    | none => ⟨segments.headD []⟩
  else "default"

/-! ### The route registry (class `HonoSwagger`, src/index.ts) -/

/-- One entry of a route's `parameters` list; the source key `in` is a Lean
keyword and is embedded as `loc`. -/
structure Param where
  name : String
  loc : String
  required : Bool
  schema : JsonV

/-- The `RouteInfo` interface (src/index.ts:29).  `method`, `path`,
`parameters`, `responses` and `tags` are required keys; the other keys are
optional and modelled with `JsOpt`.  `zodSchema?: any` is never inspected by
the registry and is embedded opaquely as a string payload. -/
structure RouteInfo where
  method : String
  path : String
  parameters : List Param
  responses : JsonV
  tags : List String
  summary : JsOpt String
  description : JsOpt String
  zodSchema : JsOpt String
  requestBody : JsOpt JsonV

/-- Options bag accepted by `autoRegisterRoute` / `registerRoute`
(`options?` of src/index.ts:206 and src/index.ts:284); a missing `options`
object is the bag with every key absent. -/
structure RouteOpts where
  tags : JsOpt (List String) := .absent
  summary : JsOpt String := .absent
  description : JsOpt String := .absent
  requestBody : JsOpt JsonV := .absent
  parameters : JsOpt (List Param) := .absent
  responses : JsOpt JsonV := .absent

/-- Configuration after the constructor merged the defaults
(src/index.ts:53): the documentation-UI route and the exclusion prefixes. -/
structure SwaggerCfg where
  route : String
  excludePaths : List String

/-- Options produced by the constructor when the user passes none. -/
def defaultCfg : SwaggerCfg := { route := "/swagger-ui", excludePaths := [] }

/-- `shouldExcludePath` (src/index.ts:874). -/
def shouldExcludePath (cfg : SwaggerCfg) (path : String) : Bool :=
  if strStartsWith path cfg.route then true
  else cfg.excludePaths.any (fun ex => strStartsWith path ex)

/-- `isRouteDocumented` (src/index.ts:867). -/
def isRouteDocumented (method path : String) (routes : List RouteInfo) : Bool :=
  routes.any (fun r => r.method == method && r.path == path)

/-- `generateDefaultResponses` (src/index.ts:770). -/
def generateDefaultResponses : JsonV :=
  .obj
    [("200", .obj [("description", .str "Success"),
        ("content", .obj [("application/json",
          .obj [("schema", .obj [("type", .str "object")])])])]),
     ("400", .obj [("description", .str "Bad Request"),
        ("content", .obj [("application/json",
          .obj [("schema", .obj [("type", .str "object"),
            ("properties", .obj [("message", .obj [("type", .str "string")])])])])])]),
     ("500", .obj [("description", .str "Internal Server Error"),
        ("content", .obj [("application/json",
          .obj [("schema", .obj [("type", .str "object"),
            ("properties", .obj [("message", .obj [("type", .str "string")])])])])])])]

/-- Default generic request body used for body-carrying verbs. -/
def defaultRequestBody : JsonV :=
  .obj [("content", .obj [("application/json",
    .obj [("schema", .obj [("type", .str "object")])])])]

/-- `generateRequestBodyFromMethod` (src/index.ts:263).  For non-body verbs
the JS function returns `undefined`, and the produced object literal then
carries the `requestBody` key present with value `undefined`. -/
def generateRequestBodyFromMethod (method : String) (opts : RouteOpts) : JsOpt JsonV :=
  if ["post", "put", "patch"].contains method.toLower then
    match opts.requestBody with
    | .val v => if jsTruthy v then .val v else .val defaultRequestBody
    | _ => .val defaultRequestBody
  else .undefined

/-- `extractParametersFromPath` (src/index.ts:241): every `/:\w+/g` match of
the given path becomes a required path parameter of type string. -/
def extractParametersFromPath (path : String) : List Param :=
  (ecpA none path.data).map
    (fun w => { name := w, loc := "path", required := true,
                schema := .obj [("type", .str "string")] })

/-- Field-wise result of the JS spread `\x7b...existingRoute, ...route\x7d`
performed by `addRoute`: required keys always come from the new route, and
an optional key of the new route overrides exactly when it is present. -/
def spreadMerge (old new : RouteInfo) : RouteInfo :=
  { method := new.method
    path := new.path
    parameters := new.parameters
    responses := new.responses
    tags := new.tags
    summary := jsSpread old.summary new.summary
    description := jsSpread old.description new.description
    zodSchema := jsSpread old.zodSchema new.zodSchema
    requestBody := jsSpread old.requestBody new.requestBody }

/-- `addRoute` (src/index.ts:608), the registry upsert: replace the first
entry with the same `(method, path)` by the spread merge, or push the route
at the end when no entry matches. -/
def addRoute : List RouteInfo → RouteInfo → List RouteInfo
  | [], route => [route]
  | r :: rest, route =>
      if r.method = route.method ∧ r.path = route.path
      then spreadMerge r route :: rest
      else r :: addRoute rest route

/-- `autoRegisterRoute` (src/index.ts:206): drop excluded paths, normalize,
return unchanged when the `(method, normalized path)` pair is already
documented, otherwise build the `RouteInfo` literal and upsert it. -/
def autoRegisterRoute (cfg : SwaggerCfg) (routes : List RouteInfo)
    (method path : String) (opts : RouteOpts) : List RouteInfo :=
  if shouldExcludePath cfg path then routes
  else
    let openAPIPath := convertToOpenAPIPath path
    let normalizedPath := normalizePath openAPIPath
    if isRouteDocumented method normalizedPath routes then routes
    else
      addRoute routes
        { method := method.toLower
          path := normalizedPath
          parameters := extractParametersFromPath normalizedPath
          responses := generateDefaultResponses
          tags := jsOrList opts.tags [generateTagFromPath path]
          summary := .val (jsOrStr opts.summary (method.toUpper ++ " " ++ path))
          description := opts.description.orUndefined
          zodSchema := .absent
          requestBody := generateRequestBodyFromMethod method opts }

/-- `registerRoute` (src/index.ts:284), the manual registration API: note
that it neither checks `shouldExcludePath` nor strips a trailing slash; its
object literal carries no `summary`/`description` keys but does carry the
`requestBody` key. -/
def registerRoute (routes : List RouteInfo) (method path : String)
    (opts : RouteOpts) : List RouteInfo :=
  addRoute routes
    { method := method.toLower
      path := convertToOpenAPIPath path
      parameters := jsOrList opts.parameters []
      responses := jsOrJson opts.responses generateDefaultResponses
      tags := jsOrList opts.tags [generateTagFromPath path]
      summary := .absent
      description := .absent
      zodSchema := .absent
      requestBody := opts.requestBody.orUndefined }

/-! ### Runtime interception (`hookIntoRouteMethods`, `hookIntoRouteMethod`,
`hookIntoSubAppRoutes`, src/index.ts:98-201)

Routers are identified by numbers; `0` is the main app.  The constructor
wraps the main app's verb methods (recording with the path as given, i.e.
base `""`) and the main app's `route` (mount) method.  Mounting a sub-app
on a router whose `route` method is wrapped wraps the sub-app's verb
methods with the mount path as base; it does not wrap the sub-app's own
`route` method.  A verb call on a router whose verb methods are wrapped
first calls `autoRegisterRoute` on the accumulated path and then delegates
to the original method. -/

/-- Trace of observable effects of one intercepted call: the observation
(the `autoRegisterRoute` call), the delegation to the original method, and
the wrapping performed by an intercepted mount. -/
inductive TraceEv where
  | observed (router : Nat) (method fullPath : String)
  | delegated (router : Nat) (method path : String)
  | mounted (router : Nat) (basePath : String) (child : Nat)
deriving DecidableEq, Repr

/-- Registration calls the hosted application may perform. -/
inductive AppOp where
  | verb (router : Nat) (method path : String) (opts : RouteOpts)
  | mount (router : Nat) (basePath : String) (child : Nat)

/-- Interception state: the registry (`this.routes`), the routers whose verb
methods are wrapped together with their accumulated base path, and the
routers whose `route` (mount) method is wrapped. -/
structure InterceptState where
  registry : List RouteInfo
  verbHooked : List (Nat × String)
  routeHooked : List Nat

/-- Base path under which a router's verb methods are wrapped, if any. -/
def lookupHook (hooks : List (Nat × String)) (r : Nat) : Option String :=
  (hooks.find? (fun h => h.1 == r)).map (·.2)

/-- State right after the `HonoSwagger` constructor ran: the registry is
empty, the main app's verb methods are wrapped with base `""`, and the main
app's mount method is wrapped. -/
def initState : InterceptState :=
  { registry := [], verbHooked := [(0, "")], routeHooked := [0] }

/-- Effect of one registration call under the interception wrappers. -/
def stepOp (cfg : SwaggerCfg) (s : InterceptState) :
    AppOp → InterceptState × List TraceEv
  | .verb r m p opts =>
      match lookupHook s.verbHooked r with
      | some base =>
          ({ s with registry := autoRegisterRoute cfg s.registry m (base ++ p) opts },
           [.observed r m (base ++ p), .delegated r m p])
      | none => (s, [.delegated r m p])
  | .mount r b c =>
      if s.routeHooked.contains r then
        ({ s with verbHooked := (c, b) :: s.verbHooked }, [.mounted r b c])
      else (s, [])

/-- Run a sequence of registration calls, collecting the trace. -/
def runOps (cfg : SwaggerCfg) : InterceptState → List AppOp → InterceptState × List TraceEv
  | s, [] => (s, [])
  | s, op :: rest =>
      let (s', evs) := stepOp cfg s op
      let (s'', evs') := runOps cfg s' rest
      (s'', evs ++ evs')

/-! ### Static-scan registration (`scanAndRegisterRouters`, src/index.ts:400) -/

/-- One textual route match produced by the scanner (`RouteInfo` of
src/routerScanner.ts:12). -/
structure ScanRoute where
  method : String
  path : String
  lineNumber : Nat

/-- Registration of one scanned route (body of the inner loop of
`scanAndRegisterRouters`, src/index.ts:417-427). -/
def scanRegisterRoute (cfg : SwaggerCfg) (routes : List RouteInfo)
    (filePath basePath : String) (sr : ScanRoute) : List RouteInfo :=
  let fullPath := basePath ++ sr.path
  autoRegisterRoute cfg routes sr.method fullPath
    { tags := .val [generateTagFromPath fullPath]
      summary := .val (sr.method.toUpper ++ " " ++ fullPath)
      description := .val ("Auto-generated from " ++ filePath)
      requestBody := generateRequestBodyFromMethod sr.method {} }

/-! ### The schema converter (`HonoSwaggerAnalyzer.zodToOpenAPI`)

A schema fragment is a JS object drawn from a fixed key universe; it is
embedded as a record with one optional field per key, which matches the
structural (key-order-insensitive) equality the source's tests use.
Exceptions can arise inside one dispatch frame from the thunk calls
`schema._def.shape()` and `schema._def.defaultValue()`; these thunks are
embedded as `Except` values.  Each recursive `zodToOpenAPI` call carries
its own try/catch, so a fault is caught in the frame it occurs in; warnings
are collected in an output list modelling the `console.warn` channel. -/

/-- OpenAPI schema fragment: a JS object over the fixed key set used by the
converter; `none` means the key is absent. -/
inductive Frag where
  | mk (type format : Option String) (minLength maxLength : Option Int)
      (pattern : Option String) (minimum maximum : Option Int)
      (properties : Option (List (String × Frag)))
      (required : Option (List String))
      (items : Option Frag)
      (enumVals : Option (List JsonV))
      (oneOf : Option (List Frag))
      (dflt : Option JsonV)

/-- The empty JS object. -/
def Frag.base : Frag := .mk none none none none none none none none none none none none none

def Frag.setType : Frag → String → Frag
  | .mk _ f mnl mxl pat mn mx pr rq it ev oo df, v =>
      .mk (some v) f mnl mxl pat mn mx pr rq it ev oo df

def Frag.setFormat : Frag → String → Frag
  | .mk t _ mnl mxl pat mn mx pr rq it ev oo df, v =>
      .mk t (some v) mnl mxl pat mn mx pr rq it ev oo df

def Frag.setMinLength : Frag → Int → Frag
  | .mk t f _ mxl pat mn mx pr rq it ev oo df, v =>
      .mk t f (some v) mxl pat mn mx pr rq it ev oo df

def Frag.setMaxLength : Frag → Int → Frag
  | .mk t f mnl _ pat mn mx pr rq it ev oo df, v =>
      .mk t f mnl (some v) pat mn mx pr rq it ev oo df

def Frag.setPattern : Frag → String → Frag
  | .mk t f mnl mxl _ mn mx pr rq it ev oo df, v =>
      .mk t f mnl mxl (some v) mn mx pr rq it ev oo df

def Frag.setMinimum : Frag → Int → Frag
  | .mk t f mnl mxl pat _ mx pr rq it ev oo df, v =>
      .mk t f mnl mxl pat (some v) mx pr rq it ev oo df

def Frag.setMaximum : Frag → Int → Frag
  | .mk t f mnl mxl pat mn _ pr rq it ev oo df, v =>
      .mk t f mnl mxl pat mn (some v) pr rq it ev oo df

def Frag.setProperties : Frag → List (String × Frag) → Frag
  | .mk t f mnl mxl pat mn mx _ rq it ev oo df, v =>
      .mk t f mnl mxl pat mn mx (some v) rq it ev oo df

def Frag.setRequired : Frag → List String → Frag
  | .mk t f mnl mxl pat mn mx pr _ it ev oo df, v =>
      .mk t f mnl mxl pat mn mx pr (some v) it ev oo df

def Frag.setItems : Frag → Frag → Frag
  | .mk t f mnl mxl pat mn mx pr rq _ ev oo df, v =>
      .mk t f mnl mxl pat mn mx pr rq (some v) ev oo df

def Frag.setEnum : Frag → List JsonV → Frag
  | .mk t f mnl mxl pat mn mx pr rq it _ oo df, v =>
      .mk t f mnl mxl pat mn mx pr rq it (some v) oo df

def Frag.setOneOf : Frag → List Frag → Frag
  | .mk t f mnl mxl pat mn mx pr rq it ev _ df, v =>
      .mk t f mnl mxl pat mn mx pr rq it ev (some v) df

def Frag.setDefault : Frag → JsonV → Frag
  | .mk t f mnl mxl pat mn mx pr rq it ev oo _, v =>
      .mk t f mnl mxl pat mn mx pr rq it ev oo (some v)

def Frag.required : Frag → Option (List String)
  | .mk _ _ _ _ _ _ _ _ rq _ _ _ _ => rq

def Frag.properties : Frag → Option (List (String × Frag))
  | .mk _ _ _ _ _ _ _ pr _ _ _ _ _ => pr

/-- Checks attached to a `ZodString` (`schema._def.checks`); `other` stands
for any check kind the converter's switch does not mention. -/
inductive StrCheck where
  | email
  | url
  | min (v : Int)
  | max (v : Int)
  | regex (source : String)
  | other
deriving DecidableEq, Repr

/-- Checks attached to a `ZodNumber`. -/
inductive NumCheck where
  | min (v : Int)
  | max (v : Int)
  | int
  | other
deriving DecidableEq, Repr

/-- One iteration of the `ZodString` check loop. -/
def applyStrCheck (f : Frag) : StrCheck → Frag
  | .email => f.setFormat "email"
  | .url => f.setFormat "uri"
  | .min v => f.setMinLength v
  | .max v => f.setMaxLength v
  | .regex src => f.setPattern src
  | .other => f

/-- One iteration of the `ZodNumber` check loop. -/
def applyNumCheck (f : Frag) : NumCheck → Frag
  | .min v => f.setMinimum v
  | .max v => f.setMaximum v
  | .int => f.setType "integer"
  | .other => f

/-- Zod schema node graph as the converter's `instanceof` dispatch sees it.
The `zobject` shape and the `zdefault` default value are thunk results and
may be an exception (`Except.error`); `zunsupported` stands for any node
kind the dispatch does not recognize. -/
inductive Zod where
  | zstring (checks : List StrCheck)
  | znumber (checks : List NumCheck)
  | zboolean
  | zobject (shape : Except String (List (String × Zod)))
  | zarray (elem : Zod)
  | zoptional (inner : Zod)
  | zdefault (inner : Zod) (value : Except String JsonV)
  | zenum (values : List String)
  | zunion (options : List Zod)
  | zliteral (value : JsonV)
  | zunsupported

/-- JS `typeof` of a runtime value (`typeof null` is `"object"`, arrays are
`"object"`). -/
def typeofJs : JsonV → String
  | .str _ => "string"
  | .num _ => "number"
  | .bool _ => "boolean"
  | .null => "object"
  | .arr _ => "object"
  | .obj _ => "object"

/-- Field test of the `ZodObject` branch: a field is left out of `required`
iff it is a `ZodOptional` or a `ZodDefault` at top level. -/
def isOptOrDefault : Zod → Bool
  | .zoptional _ => true
  | .zdefault _ _ => true
  | _ => false

/-- Warning emitted by the catch handler of `zodToOpenAPI`. -/
def convWarn (e : String) : String :=
  "Failed to convert Zod schema to OpenAPI: " ++ e

/-- Fault raised inside the current dispatch frame of `zodToOpenAPI` for the
given node, if any: `shape()` or `defaultValue()` throwing. -/
def frameFault : Zod → Option String
  | .zobject (.error e) => some e
  | .zdefault _ (.error e) => some e
  | _ => none

/-- `HonoSwaggerAnalyzer.zodToOpenAPI` on a non-null schema node: the
type-directed dispatch, returning the fragment together with the warnings
emitted during the conversion.  A frame whose thunk throws is caught by that
frame's catch handler, emits a warning and yields the `\x7btype:"object"\x7d`
fallback, which is also the silent result for unsupported node kinds. -/
def zconv : Zod → Frag × List String
  | .zstring checks => (checks.foldl applyStrCheck (Frag.base.setType "string"), [])
  | .znumber checks => (checks.foldl applyNumCheck (Frag.base.setType "number"), [])
  | .zboolean => (Frag.base.setType "boolean", [])
  | .zobject (.error e) => (Frag.base.setType "object", [convWarn e])
  | .zobject (.ok shape) =>
      let (props, req, warns) := goFields shape
      let objectSchema := (Frag.base.setType "object").setProperties props
      (if req.length > 0 then objectSchema.setRequired req else objectSchema, warns)
  | .zarray elem =>
      let (f, ws) := zconv elem
      ((Frag.base.setType "array").setItems f, ws)
  | .zoptional inner => zconv inner
  | .zdefault inner (.ok v) =>
      let (f, ws) := zconv inner
      (f.setDefault v, ws)
  | .zdefault inner (.error e) =>
      let (_, ws) := zconv inner
      (Frag.base.setType "object", ws ++ [convWarn e])
  | .zenum values => ((Frag.base.setType "string").setEnum (values.map .str), [])
  | .zunion options =>
      let rs := goList options
      (Frag.base.setOneOf (rs.map (·.1)), rs.foldr (fun r acc => r.2 ++ acc) [])
  | .zliteral v => ((Frag.base.setType (typeofJs v)).setEnum [v], [])
  | .zunsupported => (Frag.base.setType "object", [])
where
  goFields : List (String × Zod) → List (String × Frag) × List String × List String
    | [] => ([], [], [])
    | (k, v) :: rest =>
        let (f, ws) := zconv v
        let (props, req, warns) := goFields rest
        ((k, f) :: props, if isOptOrDefault v then req else k :: req, ws ++ warns)
  goList : List Zod → List (Frag × List String)
    | [] => []
    | z :: rest => zconv z :: goList rest

/-- `HonoSwaggerAnalyzer.zodToOpenAPI` including the initial null guard
(`if (!schema) return \x7btype: 'object'\x7d`). -/
def zodToOpenAPI (schema : Option Zod) : Frag × List String :=
  match schema with
  | none => (Frag.base.setType "object", [])
  | some z => zconv z

/-! ### Concrete route values used in witnesses and counterexamples -/

/-- Minimal route value for the key `(get, /x)` with every optional key
absent. -/
def routeBareGetX : RouteInfo :=
  ⟨"get", "/x", [], .obj [], [], .absent, .absent, .absent, .absent⟩

/-- Same key, with the summary key present with the value `"S"`. -/
def routeSummaryGetX : RouteInfo :=
  ⟨"get", "/x", [], .obj [], [], .val "S", .absent, .absent, .absent⟩

/-- Same key, with a tag and the summary `"S"`. -/
def routeTaggedGetX : RouteInfo :=
  ⟨"get", "/x", [], .obj [], ["t"], .val "S", .absent, .absent, .absent⟩

/-- Same key, with the summary key present but `undefined` and empty tags. -/
def routeUndefGetX : RouteInfo :=
  ⟨"get", "/x", [], .obj [], [], .undefined, .absent, .absent, .absent⟩

/-! ## Theorems -/

/-! ### Registry lemmas -/

theorem jsSpread_self {α : Type} (o : JsOpt α) : jsSpread o o = o := by
  cases o <;> rfl

theorem jsSpread_right_idem {α : Type} (o n : JsOpt α) :
    jsSpread (jsSpread o n) n = jsSpread o n := by
  cases n <;> rfl

theorem spreadMerge_self (R : RouteInfo) : spreadMerge R R = R := by
  simp [spreadMerge, jsSpread_self]

theorem spreadMerge_right_idem (r R : RouteInfo) :
    spreadMerge (spreadMerge r R) R = spreadMerge r R := by
  simp [spreadMerge, jsSpread_right_idem]

theorem spreadMerge_method (old new : RouteInfo) :
    (spreadMerge old new).method = new.method := rfl

theorem spreadMerge_path (old new : RouteInfo) :
    (spreadMerge old new).path = new.path := rfl

theorem addRoute_cons_pos (a : RouteInfo) (rest : List RouteInfo) (R : RouteInfo)
    (hc : a.method = R.method ∧ a.path = R.path) :
    addRoute (a :: rest) R = spreadMerge a R :: rest := by
  simp only [addRoute]
  rw [if_pos hc]

theorem addRoute_cons_neg (a : RouteInfo) (rest : List RouteInfo) (R : RouteInfo)
    (hc : ¬(a.method = R.method ∧ a.path = R.path)) :
    addRoute (a :: rest) R = a :: addRoute rest R := by
  simp only [addRoute]
  rw [if_neg hc]

theorem addRoute_fresh (rs : List RouteInfo) (R : RouteInfo)
    (h : ∀ r ∈ rs, ¬(r.method = R.method ∧ r.path = R.path)) :
    addRoute rs R = rs ++ [R] := by
  induction rs with
  | nil => rfl
  | cons a rest ih =>
      rw [addRoute_cons_neg a rest R (h a (List.mem_cons_self a rest)), List.cons_append]
      exact congrArg (a :: ·) (ih (fun r hr => h r (List.mem_cons_of_mem a hr)))

theorem addRoute_append_match (rs : List RouteInfo) (r0 R : RouteInfo)
    (h : ∀ r ∈ rs, ¬(r.method = R.method ∧ r.path = R.path))
    (hm : r0.method = R.method) (hp : r0.path = R.path) :
    addRoute (rs ++ [r0]) R = rs ++ [spreadMerge r0 R] := by
  induction rs with
  | nil =>
      rw [List.nil_append, List.nil_append, addRoute_cons_pos r0 [] R ⟨hm, hp⟩]
  | cons a rest ih =>
      rw [List.cons_append, List.cons_append,
        addRoute_cons_neg a (rest ++ [r0]) R (h a (List.mem_cons_self a rest))]
      exact congrArg (a :: ·) (ih (fun r hr => h r (List.mem_cons_of_mem a hr)))

theorem mem_addRoute {rs : List RouteInfo} {route r : RouteInfo}
    (h : r ∈ addRoute rs route) :
    r ∈ rs ∨ r = route ∨ ∃ old ∈ rs, r = spreadMerge old route := by
  induction rs with
  | nil =>
      simp only [addRoute, List.mem_singleton] at h
      exact Or.inr (Or.inl h)
  | cons a rest ih =>
      by_cases hc : a.method = route.method ∧ a.path = route.path
      · rw [addRoute_cons_pos a rest route hc] at h
        rcases List.mem_cons.mp h with h1 | h2
        · exact Or.inr (Or.inr ⟨a, List.mem_cons_self a rest, h1⟩)
        · exact Or.inl (List.mem_cons_of_mem a h2)
      · rw [addRoute_cons_neg a rest route hc] at h
        rcases List.mem_cons.mp h with h1 | h2
        · exact Or.inl (h1 ▸ List.mem_cons_self a rest)
        · rcases ih h2 with h3 | h3 | ⟨old, hold, heq⟩
          · exact Or.inl (List.mem_cons_of_mem a h3)
          · exact Or.inr (Or.inl h3)
          · exact Or.inr (Or.inr ⟨old, List.mem_cons_of_mem a hold, heq⟩)

/-! ### Claims C1 and C2: registry merge and idempotence -/

/-- Claim C2: upserting the same route twice on any registry state yields
the same snapshot (same entries, same order, same fields) as upserting it
once. -/
theorem upsert_twice_eq_upsert_once (rs : List RouteInfo) (R : RouteInfo) :
    addRoute (addRoute rs R) R = addRoute rs R := by
  induction rs with
  | nil =>
      show addRoute [R] R = [R]
      rw [addRoute_cons_pos R [] R ⟨rfl, rfl⟩, spreadMerge_self]
  | cons a rest ih =>
      by_cases hc : a.method = R.method ∧ a.path = R.path
      · rw [addRoute_cons_pos a rest R hc,
          addRoute_cons_pos (spreadMerge a R) rest R
            ⟨spreadMerge_method a R, spreadMerge_path a R⟩,
          spreadMerge_right_idem]
      · rw [addRoute_cons_neg a rest R hc, addRoute_cons_neg a (addRoute rest R) R hc, ih]

/-- Claim C1 (amended): upserting `R1` then `R2` with the same method and
path into a registry that has no entry for that key leaves exactly one
entry for the key, and that entry is the JS object-spread merge of `R1`
then `R2`: keys present on `R2` (including keys explicitly set to
`undefined`, and empty strings/arrays) override, only keys absent from `R2`
keep `R1`'s values.  In particular upserting a bare route and then one with
`summary := "S"` yields one entry with summary `"S"` and no duplicate. -/
theorem upsert_merge_spread (rs : List RouteInfo) (R1 R2 : RouteInfo)
    (hm : R1.method = R2.method) (hp : R1.path = R2.path)
    (hfresh : ∀ r ∈ rs, ¬(r.method = R1.method ∧ r.path = R1.path)) :
    addRoute (addRoute rs R1) R2 = rs ++ [spreadMerge R1 R2]
    ∧ (addRoute (addRoute rs R1) R2).countP
        (fun r => r.method == R2.method && r.path == R2.path) = 1 := by
  have hfresh2 : ∀ r ∈ rs, ¬(r.method = R2.method ∧ r.path = R2.path) := by
    intro r hr
    rw [← hm, ← hp]
    exact hfresh r hr
  have h2 : addRoute (addRoute rs R1) R2 = rs ++ [spreadMerge R1 R2] := by
    rw [addRoute_fresh rs R1 hfresh]
    exact addRoute_append_match rs R1 R2 hfresh2 hm hp
  refine ⟨h2, ?_⟩
  rw [h2, List.countP_append]
  have hz : rs.countP (fun r => r.method == R2.method && r.path == R2.path) = 0 := by
    rw [List.countP_eq_zero]
    intro r hr
    simp only [Bool.and_eq_true, beq_iff_eq]
    exact fun hcc => hfresh2 r hr ⟨hcc.1, hcc.2⟩
  rw [hz]
  simp [List.countP_cons, spreadMerge_method, spreadMerge_path]

theorem upsert_merge_spread_witness :
    addRoute (addRoute [] routeBareGetX) routeSummaryGetX
      = [] ++ [spreadMerge routeBareGetX routeSummaryGetX]
    ∧ (spreadMerge routeBareGetX routeSummaryGetX).summary = .val "S" :=
  ⟨(upsert_merge_spread [] routeBareGetX routeSummaryGetX rfl rfl
      (fun r hr => absurd hr (List.not_mem_nil r))).1, rfl⟩

/-- Claim C1 is false as stated: a summary key present with value
`undefined` on `R2` erases the summary `"S"` already present from `R1`
(and `R2`'s empty `tags` array replaces `R1`'s non-empty one), because the
merge is the JS object spread, which overrides with every present key. -/
theorem upsert_undef_erases_counterexample :
    (addRoute (addRoute [] routeTaggedGetX) routeUndefGetX).map
        (fun r => (r.summary, r.tags))
      = [(.undefined, [])]
    ∧ (JsOpt.undefined : JsOpt String) ≠ .val "S" :=
  ⟨rfl, by decide⟩

/-! ### Claims C3 and C10: exclusion and already-documented routes -/

theorem autoRegisterRoute_excluded (cfg : SwaggerCfg) (routes : List RouteInfo)
    (method path : String) (opts : RouteOpts)
    (h : shouldExcludePath cfg path = true) :
    autoRegisterRoute cfg routes method path opts = routes := by
  unfold autoRegisterRoute
  rw [if_pos h]

/-- Claim C3 (amended): a route whose path matches the documentation-UI
route prefix or an exclusion prefix is dropped by the automatic discovery
paths — `autoRegisterRoute`, hence both runtime interception and static-scan
registration leave the registry unchanged, so no excluded path reaches the
snapshot or the rendered document through them.  Manual registration
(`registerRoute`) performs no exclusion check and does store such a path
(see the counterexample). -/
theorem excluded_paths_not_registered :
    (∀ cfg routes method path opts, shouldExcludePath cfg path = true →
        autoRegisterRoute cfg routes method path opts = routes)
    ∧ (∀ cfg s r method path opts base,
        lookupHook s.verbHooked r = some base →
        shouldExcludePath cfg (base ++ path) = true →
        (stepOp cfg s (.verb r method path opts)).1.registry = s.registry)
    ∧ (∀ cfg routes filePath basePath sr,
        shouldExcludePath cfg (basePath ++ sr.path) = true →
        scanRegisterRoute cfg routes filePath basePath sr = routes) := by
  refine ⟨autoRegisterRoute_excluded, ?_, ?_⟩
  · intro cfg s r method path opts base hlk hex
    simp only [stepOp, hlk]
    exact autoRegisterRoute_excluded cfg s.registry method (base ++ path) opts hex
  · intro cfg routes filePath basePath sr hex
    exact autoRegisterRoute_excluded cfg routes sr.method (basePath ++ sr.path) _ hex

theorem excluded_paths_not_registered_witness :
    shouldExcludePath defaultCfg "/swagger-ui/x" = true
    ∧ autoRegisterRoute defaultCfg [] "get" "/swagger-ui/x" {} = [] :=
  ⟨rfl, excluded_paths_not_registered.1 defaultCfg [] "get" "/swagger-ui/x" {} rfl⟩

/-- Claim C3 is false as stated: manual registration does not check the
exclusion prefixes, so registering a path under the documentation-UI route
stores it in the registry. -/
theorem manual_register_ignores_exclusion_counterexample :
    shouldExcludePath defaultCfg "/swagger-ui/secret" = true
    ∧ (registerRoute [] "get" "/swagger-ui/secret" {}).map (·.path)
        = ["/swagger-ui/secret"] :=
  ⟨rfl, rfl⟩

/-- Claim C10: auto-registering a `(method, path)` pair whose normalized
form is already documented returns without modifying the registry at all:
no field of the existing entry changes, nothing is added or reordered, so
the first discovery's metadata wins. -/
theorem auto_register_documented_unchanged (cfg : SwaggerCfg)
    (routes : List RouteInfo) (method path : String) (opts : RouteOpts)
    (h : isRouteDocumented method (normalizePath (convertToOpenAPIPath path)) routes
          = true) :
    autoRegisterRoute cfg routes method path opts = routes := by
  unfold autoRegisterRoute
  split
  · rfl
  · simp only [h, if_true]

theorem auto_register_documented_unchanged_witness :
    isRouteDocumented "get" (normalizePath (convertToOpenAPIPath "/x"))
        [routeBareGetX] = true
    ∧ autoRegisterRoute defaultCfg [routeBareGetX] "get" "/x" {} = [routeBareGetX] :=
  ⟨rfl, auto_register_documented_unchanged defaultCfg [routeBareGetX] "get" "/x" {} rfl⟩

/-! ### Path-scan lemmas: the brace rewriting leaves no colon-parameter -/

theorem rcpA_false_cons_eq (c : Char) (rest : List Char) :
    rcpA false (c :: rest)
      = if c = ':' then
          (match rest with
           | [] => [':']
           | c2 :: rest2 =>
             if isWordChar c2 then '{' :: c2 :: rcpA true rest2
             else ':' :: rcpA false (c2 :: rest2))
        else c :: rcpA false rest := by
  rw [rcpA.eq_def]

theorem ecpA_none_cons_eq (c : Char) (rest : List Char) :
    ecpA none (c :: rest)
      = if c = ':' then
          (match rest with
           | [] => []
           | c2 :: rest2 =>
             if isWordChar c2 then ecpA (some [c2]) rest2
             else ecpA none (c2 :: rest2))
        else ecpA none rest := by
  rw [ecpA.eq_def]

theorem word_ne_colon {c : Char} (h : isWordChar c = true) : (c == ':') = false := by
  by_cases hc : c = ':'
  · subst hc
    exact absurd h (by decide)
  · exact beq_eq_false_iff_ne.mpr hc

theorem noCW_cons_of_ne (c : Char) (l : List Char) (hne : (c == ':') = false)
    (h : noCW l = true) : noCW (c :: l) = true := by
  cases l with
  | nil => rfl
  | cons c2 t => simp [noCW, hne, h]

theorem noCW_cons_colon_head (hh : Char) (t : List Char)
    (hw : isWordChar hh = false) (h : noCW (hh :: t) = true) :
    noCW (':' :: hh :: t) = true := by
  simp [noCW, hw, h]

theorem rcpA_false_head_not_word (c : Char) (rest : List Char)
    (hw : isWordChar c = false) :
    ∃ h t, rcpA false (c :: rest) = h :: t ∧ isWordChar h = false := by
  by_cases hc : c = ':'
  · subst hc
    cases rest with
    | nil => exact ⟨':', [], rfl, by decide⟩
    | cons c2 r2 =>
        by_cases hw2 : isWordChar c2
        · exact ⟨'{', c2 :: rcpA true r2, by rw [rcpA_false_cons_eq]; simp [hw2], by decide⟩
        · exact ⟨':', rcpA false (c2 :: r2), by rw [rcpA_false_cons_eq]; simp [hw2], by decide⟩
  · exact ⟨c, rcpA false rest, by rw [rcpA_false_cons_eq]; simp [hc], hw⟩

theorem noCW_rcpA (b : Bool) (l : List Char) : noCW (rcpA b l) = true := by
  induction b, l using rcpA.induct with
  | case1 => rfl
  | case2 => rfl
  | case3 => rfl
  | case4 c2 rest2 hw2 ih =>
      rw [rcpA_false_cons_eq]
      simp only [if_pos rfl, hw2, if_true]
      exact noCW_cons_of_ne _ _ (by decide)
        (noCW_cons_of_ne _ _ (word_ne_colon hw2) ih)
  | case5 c2 rest2 hw2 ih =>
      rw [rcpA_false_cons_eq]
      simp only [if_pos rfl, hw2, if_false]
      obtain ⟨hh, t, heq, hwh⟩ := rcpA_false_head_not_word c2 rest2 (by simpa using hw2)
      rw [heq]
      rw [heq] at ih
      exact noCW_cons_colon_head hh t hwh ih
  | case6 c rest hc ih =>
      rw [rcpA_false_cons_eq, if_neg hc]
      exact noCW_cons_of_ne _ _ (beq_eq_false_iff_ne.mpr hc) ih
  | case7 c rest hw ih =>
      rw [rcpA.eq_def]
      simp only [hw, if_true]
      exact noCW_cons_of_ne _ _ (word_ne_colon hw) ih
  | case8 hw =>
      rw [rcpA.eq_def]
      simp only [hw, if_false, if_pos rfl]
      decide
  | case9 c2 rest2 hw2 hw ih =>
      rw [rcpA.eq_def]
      simp only [hw, hw2, if_false, if_true, if_pos rfl]
      exact noCW_cons_of_ne _ _ (by decide)
        (noCW_cons_of_ne _ _ (by decide)
          (noCW_cons_of_ne _ _ (word_ne_colon hw2) ih))
  | case10 c2 rest2 hw2 hw ih =>
      rw [rcpA.eq_def]
      simp only [hw, hw2, if_false, if_pos rfl]
      obtain ⟨hh, t, heq, hwh⟩ := rcpA_false_head_not_word c2 rest2 (by simpa using hw2)
      rw [heq]
      rw [heq] at ih
      exact noCW_cons_of_ne _ _ (by decide) (noCW_cons_colon_head hh t hwh ih)
  | case11 c rest hw hc ih =>
      rw [rcpA.eq_def]
      simp only [hw, hc, if_false]
      exact noCW_cons_of_ne _ _ (by decide)
        (noCW_cons_of_ne _ _ (beq_eq_false_iff_ne.mpr hc) ih)

theorem noCW_dropLast (l : List Char) (h : noCW l = true) :
    noCW l.dropLast = true := by
  induction l using noCW.induct with
  | case1 => rfl
  | case2 c => rfl
  | case3 c c2 rest ih =>
      simp only [noCW, Bool.and_eq_true] at h
      cases rest with
      | nil => rfl
      | cons r rs =>
          simp only [List.dropLast]
          have := ih h.2
          simp only [List.dropLast] at this
          simp [noCW, h.1, this]

theorem ecpA_none_of_noCW (l : List Char) (h : noCW l = true) :
    ecpA none l = [] := by
  induction l using noCW.induct with
  | case1 => rfl
  | case2 c =>
      rw [ecpA_none_cons_eq]
      by_cases hc : c = ':'
      · rw [if_pos hc]
      · rw [if_neg hc]
        rfl
  | case3 c c2 rest ih =>
      simp only [noCW, Bool.and_eq_true] at h
      rw [ecpA_none_cons_eq]
      by_cases hc : c = ':'
      · subst hc
        have hw2 : isWordChar c2 = false := by
          simpa using h.1
        simp only [if_pos rfl, hw2, if_false]
        exact ih h.2
      · rw [if_neg hc]
        exact ih h.2

theorem extractParams_normalized_nil (p : String) :
    extractParametersFromPath (normalizePath (convertToOpenAPIPath p)) = [] := by
  have hbase : noCW (rcpA false p.data) = true := noCW_rcpA false p.data
  unfold convertToOpenAPIPath normalizePath
  by_cases hcond : ((⟨rcpA false p.data⟩ : String).data.getLast? = some '/'
      ∧ (⟨rcpA false p.data⟩ : String) ≠ "/")
  · rw [if_pos hcond]
    show (ecpA none (rcpA false p.data).dropLast).map _ = []
    rw [ecpA_none_of_noCW _ (noCW_dropLast _ hbase)]
    rfl
  · rw [if_neg hcond]
    show (ecpA none (rcpA false p.data)).map _ = []
    rw [ecpA_none_of_noCW _ hbase]
    rfl

theorem mem_autoRegisterRoute {cfg : SwaggerCfg} {rs : List RouteInfo}
    {method path : String} {opts : RouteOpts} {r : RouteInfo}
    (h : r ∈ autoRegisterRoute cfg rs method path opts) :
    r ∈ rs ∨ (r.path = normalizePath (convertToOpenAPIPath path)
        ∧ r.parameters = []) := by
  unfold autoRegisterRoute at h
  split at h
  · exact Or.inl h
  · simp only [] at h
    split at h
    · exact Or.inl h
    · rcases mem_addRoute h with h1 | h1 | ⟨old, _, h1⟩
      · exact Or.inl h1
      · subst h1
        exact Or.inr ⟨rfl, extractParams_normalized_nil path⟩
      · subst h1
        exact Or.inr ⟨rfl, extractParams_normalized_nil path⟩

/-! ### Claims C7 and C9: path normalization and parameters -/

/-- Claim C9: every route stored by the auto-registration path carries an
empty `parameters` list, because `extractParametersFromPath` matches colon
segments against the already-normalized (brace-form) path; in particular
registering `/users/:id` stores one entry whose parameters list is empty. -/
theorem auto_registered_params_empty :
    (∀ cfg rs method path opts r, r ∈ autoRegisterRoute cfg rs method path opts →
        r ∈ rs ∨ r.parameters = [])
    ∧ (autoRegisterRoute defaultCfg [] "get" "/users/:id" {}).map (·.parameters)
        = [[]] := by
  constructor
  · intro cfg rs method path opts r h
    rcases mem_autoRegisterRoute h with h1 | ⟨_, h2⟩
    · exact Or.inl h1
    · exact Or.inr h2
  · rfl

theorem auto_registered_params_empty_witness :
    ((autoRegisterRoute defaultCfg [] "get" "/users/:id" {}).headD routeBareGetX
        ∈ ([] : List RouteInfo))
    ∨ ((autoRegisterRoute defaultCfg [] "get" "/users/:id" {}).headD
        routeBareGetX).parameters = [] :=
  auto_registered_params_empty.1 defaultCfg [] "get" "/users/:id" {} _
    (List.mem_cons_self _ _)

/-- Claim C7 (amended): both discovery paths funnel through
`autoRegisterRoute`, which stores the path in the form
`normalizePath (convertToOpenAPIPath _)`; colon parameters are rewritten to
brace placeholders (`/users/:id` to `/users/\x7bid\x7d`); normalization strips
exactly ONE trailing slash and keeps the root path `"/"` intact, so a path
ending in a single slash is stored without it while a path ending in two or
more slashes keeps all but one (see the counterexample). -/
theorem path_normalization :
    (∀ cfg s r method path opts base,
        lookupHook s.verbHooked r = some base →
        (stepOp cfg s (.verb r method path opts)).1.registry
          = autoRegisterRoute cfg s.registry method (base ++ path) opts)
    ∧ (∀ cfg rs filePath basePath sr,
        scanRegisterRoute cfg rs filePath basePath sr
          = autoRegisterRoute cfg rs sr.method (basePath ++ sr.path)
              { tags := .val [generateTagFromPath (basePath ++ sr.path)]
                summary := .val (sr.method.toUpper ++ " " ++ (basePath ++ sr.path))
                description := .val ("Auto-generated from " ++ filePath)
                requestBody := generateRequestBodyFromMethod sr.method {} })
    ∧ (∀ cfg rs method path opts r, r ∈ autoRegisterRoute cfg rs method path opts →
        r ∈ rs ∨ r.path = normalizePath (convertToOpenAPIPath path))
    ∧ convertToOpenAPIPath "/users/:id" = "/users/{id}"
    ∧ (∀ l : List Char, l ≠ [] → normalizePath ⟨l ++ ['/']⟩ = ⟨l⟩)
    ∧ normalizePath "/" = "/" := by
  refine ⟨?_, ?_, ?_, rfl, ?_, rfl⟩
  · intro cfg s r method path opts base hlk
    simp only [stepOp, hlk]
  · intro cfg rs filePath basePath sr
    rfl
  · intro cfg rs method path opts r h
    rcases mem_autoRegisterRoute h with h1 | ⟨h2, _⟩
    · exact Or.inl h1
    · exact Or.inr h2
  · intro l hl
    unfold normalizePath
    rw [if_pos ?_]
    · show (⟨(l ++ ['/']).dropLast⟩ : String) = ⟨l⟩
      rw [List.dropLast_concat]
    · constructor
      · show (l ++ ['/']).getLast? = some '/'
        rw [List.getLast?_concat]
      · intro hcontra
        have : l ++ ['/'] = ['/'] := congrArg String.data hcontra
        have hnil : l = [] := by
          have hlen := congrArg List.length this
          simp at hlen
          exact hlen
        exact hl hnil

theorem path_normalization_witness :
    ("/users".data ≠ ([] : List Char))
    ∧ normalizePath "/users/" = "/users" :=
  ⟨by decide, path_normalization.2.2.2.2.1 "/users".data (by decide)⟩

/-- Claim C7 is false as stated: registering the path `/x//` stores `/x/`,
which still ends with a trailing slash and is not the root path, because
the normalization strips only one trailing slash. -/
theorem trailing_slash_counterexample :
    (autoRegisterRoute defaultCfg [] "get" "/x//" {}).map (·.path) = ["/x/"]
    ∧ "/x/".data.getLast? = some '/'
    ∧ "/x/" ≠ "/" :=
  ⟨rfl, rfl, by decide⟩

/-! ### Claim C8: interception wrapping -/

/-- Claim C8 (amended): a verb call on a router whose verb methods are
wrapped is observed (the `autoRegisterRoute` call under the accumulated
base path) strictly before the delegation to the original method; mounting
a sub-router on a router whose mount method is wrapped wraps the
sub-router's verb methods with the mount path as base — but it does not
wrap the sub-router's own mount method, so the wrapping does not recurse:
a mount performed on a sub-router wraps nothing, and a verb call on a
router that is not wrapped is delegated without being observed. -/
theorem interceptor_one_level :
    (∀ cfg s r method path opts base,
        lookupHook s.verbHooked r = some base →
        stepOp cfg s (.verb r method path opts)
          = ({ s with registry :=
                autoRegisterRoute cfg s.registry method (base ++ path) opts },
             [.observed r method (base ++ path), .delegated r method path]))
    ∧ (∀ cfg s r basePath child, s.routeHooked.contains r = true →
        stepOp cfg s (.mount r basePath child)
          = ({ s with verbHooked := (child, basePath) :: s.verbHooked },
             [.mounted r basePath child]))
    ∧ (∀ cfg s r basePath child, s.routeHooked.contains r = false →
        stepOp cfg s (.mount r basePath child) = (s, []))
    ∧ (∀ cfg s r method path opts, lookupHook s.verbHooked r = none →
        stepOp cfg s (.verb r method path opts) = (s, [.delegated r method path])) := by
  refine ⟨?_, ?_, ?_, ?_⟩
  · intro cfg s r method path opts base hlk
    simp only [stepOp, hlk]
  · intro cfg s r basePath child hr
    simp only [stepOp, hr, if_true]
  · intro cfg s r basePath child hr
    simp only [stepOp, hr]
    rfl
  · intro cfg s r method path opts hlk
    simp only [stepOp, hlk]

theorem interceptor_one_level_witness :
    stepOp defaultCfg initState (.verb 0 "get" "/users" {})
      = ({ initState with
            registry := autoRegisterRoute defaultCfg [] "get" ("" ++ "/users") {} },
         [.observed 0 "get" ("" ++ "/users"), .delegated 0 "get" "/users"]) :=
  interceptor_one_level.1 defaultCfg initState 0 "get" "/users" {} "" rfl

/-- Claim C8 is false as stated: after mounting router 1 on the main app at
`/a` and router 2 on router 1 at `/b`, a `get /c` call on router 2 is only
delegated, never observed, and the registry stays empty — no entry under
the accumulated path `/a/b/c` exists, because the main app's mount wrapper
does not wrap the sub-router's own mount method. -/
theorem nested_mount_not_recorded_counterexample :
    runOps defaultCfg initState
        [.mount 0 "/a" 1, .mount 1 "/b" 2, .verb 2 "get" "/c" {}]
      = ({ registry := [], verbHooked := [(1, "/a"), (0, "")], routeHooked := [0] },
         [.mounted 0 "/a" 1, .delegated 2 "get" "/c"]) := rfl

/-! ### Claims C4, C5, C6: the schema converter -/

/-- Claim C4: the converter is total and never propagates an exception: a
null/absent input yields exactly the `\x7btype: "object"\x7d` fragment with no
warning, and whenever a dispatch frame raises (a throwing `shape()` or
`defaultValue()` thunk), the frame's catch handler returns the fallback
fragment and emits the warning on the diagnostic channel. -/
theorem converter_total_fallback :
    zodToOpenAPI none = (Frag.base.setType "object", [])
    ∧ (∀ z e, frameFault z = some e →
        (zodToOpenAPI (some z)).1 = Frag.base.setType "object"
        ∧ convWarn e ∈ (zodToOpenAPI (some z)).2) := by
  refine ⟨rfl, ?_⟩
  intro z e h
  match z, h with
  | .zobject (.error e'), h =>
      have he : e' = e := by simpa [frameFault] using h
      subst he
      exact ⟨rfl, List.mem_singleton.mpr rfl⟩
  | .zdefault inner (.error e'), h =>
      have he : e' = e := by simpa [frameFault] using h
      subst he
      refine ⟨rfl, ?_⟩
      show convWarn e' ∈ (zconv inner).2 ++ [convWarn e']
      exact List.mem_append_right _ (List.mem_singleton.mpr rfl)

theorem converter_total_fallback_witness :
    frameFault (.zobject (.error "boom")) = some "boom"
    ∧ ((zodToOpenAPI (some (.zobject (.error "boom")))).1 = Frag.base.setType "object"
        ∧ convWarn "boom" ∈ (zodToOpenAPI (some (.zobject (.error "boom")))).2) :=
  ⟨rfl, converter_total_fallback.2 _ "boom" rfl⟩

/-- Claim C5: converting a string schema whose checks are the email
refinement and the length bounds 1 and 100 — in any order — yields exactly
the fragment `\x7btype:"string", format:"email", minLength:1, maxLength:100\x7d`
with no warning; no refinement erases a previously discovered one. -/
theorem string_email_bounds (l : List StrCheck)
    (h : l.Perm [.email, .min 1, .max 100]) :
    zodToOpenAPI (some (.zstring l))
      = (Frag.mk (some "string") (some "email") (some 1) (some 100)
          none none none none none none none none none, []) := by
  have hfold : l.foldl applyStrCheck (Frag.base.setType "string")
      = [StrCheck.email, .min 1, .max 100].foldl applyStrCheck
          (Frag.base.setType "string") := by
    refine h.foldl_eq' ?_ _
    intro x hx y hy z
    have hx' : x ∈ [StrCheck.email, .min 1, .max 100] := h.mem_iff.mp hx
    have hy' : y ∈ [StrCheck.email, .min 1, .max 100] := h.mem_iff.mp hy
    simp only [List.mem_cons, List.not_mem_nil, or_false] at hx' hy'
    rcases hx' with rfl | rfl | rfl <;> rcases hy' with rfl | rfl | rfl <;>
      (cases z; rfl)
  show (l.foldl applyStrCheck (Frag.base.setType "string"), []) = _
  rw [hfold]
  rfl

theorem string_email_bounds_witness :
    ([StrCheck.min 1, .email, .max 100].Perm [.email, .min 1, .max 100])
    ∧ zodToOpenAPI (some (.zstring [.min 1, .email, .max 100]))
        = (Frag.mk (some "string") (some "email") (some 1) (some 100)
            none none none none none none none none none, []) :=
  ⟨List.Perm.swap _ _ _, string_email_bounds _ (List.Perm.swap _ _ _)⟩

theorem goFields_req (shape : List (String × Zod)) :
    (zconv.goFields shape).2.1
      = (shape.filter (fun kv => !isOptOrDefault kv.2)).map (·.1) := by
  induction shape with
  | nil => rfl
  | cons kv rest ih =>
      obtain ⟨k, v⟩ := kv
      show (if isOptOrDefault v then (zconv.goFields rest).2.1
          else k :: (zconv.goFields rest).2.1) = _
      by_cases hv : isOptOrDefault v
      · simp [List.filter, hv, ih]
      · simp [List.filter, hv, ih]

/-- Claim C6: in the fragment of an object schema, the `required` list is
exactly the keys of the fields that are neither optional-wrapped nor
default-wrapped at top level, and the `required` key is omitted entirely
(never an empty list) when no field qualifies; converting
`\x7bname: string, age: optional integer at least 0\x7d` yields `required`
equal to `["name"]` only, with `age`'s fragment
`\x7btype:"integer", minimum:0\x7d`. -/
theorem object_required_policy :
    (∀ shape : List (String × Zod),
        (zconv (.zobject (.ok shape))).1.required
          = if ((shape.filter (fun kv => !isOptOrDefault kv.2)).map (·.1)).length > 0
            then some ((shape.filter (fun kv => !isOptOrDefault kv.2)).map (·.1))
            else none)
    ∧ zodToOpenAPI (some (.zobject (.ok
        [("name", .zstring []), ("age", .zoptional (.znumber [.int, .min 0]))])))
      = (Frag.mk (some "object") none none none none none none
          (some [("name", Frag.mk (some "string")
                    none none none none none none none none none none none none),
                 ("age", Frag.mk (some "integer")
                    none none none none (some 0) none none none none none none none)])
          (some ["name"]) none none none none, []) := by
  constructor
  · intro shape
    show Frag.required (if (zconv.goFields shape).2.1.length > 0
        then ((Frag.base.setType "object").setProperties
            (zconv.goFields shape).1).setRequired (zconv.goFields shape).2.1
        else (Frag.base.setType "object").setProperties (zconv.goFields shape).1) = _
    rw [goFields_req shape]
    by_cases hl : ((shape.filter (fun kv => !isOptOrDefault kv.2)).map (·.1)).length > 0
    · rw [if_pos hl, if_pos hl]
      rfl
    · rw [if_neg hl, if_neg hl]
      rfl
  · rfl

end HonoSwaggerUI
